import Mathlib

/-!
Verification development for the kids-video-player repository ("sandboxView").

The repository is a React application. The control-flow-bearing parts are
embedded shallowly here:

* `ParentalGate` / `HoldButton` (src/components/ParentalGate.jsx): math-problem
  generation, answer-input filtering, submission handling with the 3-attempt
  auto-cancel timer, and the 3-second hold-to-verify button, modelled as a
  state machine driven by discrete UI/timer events.
* `VideoPlayer` (src/components/VideoPlayer.jsx): the remote-to-local playback
  fallback controller, modelled as a state machine.
* `SettingsPanel` (src/components/SettingsPanel.jsx): YouTube-id extraction and
  the add-video flow, together with `App.handleAddVideo` (src/App.jsx).
* `App` (src/App.jsx): library persistence through the host JSON facility and
  browser local storage, modelled with an executable JSON printer and parser.

JavaScript `Math.floor(Math.random() * n)` draws a uniform integer in `[0, n)`;
it is modelled by `d % n` for an arbitrary natural draw `d`.
-/

/-! ## Parental gate (src/components/ParentalGate.jsx) -/

/-- The three operators of the math challenge: `'+'`, `'-'`, `'×'`. -/
inductive Op where
  | add
  | sub
  | mul
deriving DecidableEq

/-- The ephemeral math challenge `{num1, num2, operation, answer}`. -/
structure MathProblem where
  num1 : Nat
  num2 : Nat
  operation : Op
  answer : Int
deriving DecidableEq

/-- `mathProblem` from ParentalGate.jsx: given the chosen operator and two
random draws `d1 d2` (each modelling one `Math.random()` call), build the
challenge.  `Math.floor(Math.random() * n) + k` becomes `d % n + k`. -/
def mathProblem (op : Op) (d1 d2 : Nat) : MathProblem :=
  match op with
  | .add =>
      let n1 := d1 % 20 + 10
      let n2 := d2 % 20 + 10
      ⟨n1, n2, .add, (n1 : Int) + (n2 : Int)⟩
  | .sub =>
      let n1 := d1 % 30 + 20
      let n2 := d2 % 15 + 5
      ⟨n1, n2, .sub, (n1 : Int) - (n2 : Int)⟩
  | .mul =>
      let n1 := d1 % 8 + 3
      let n2 := d2 % 8 + 3
      ⟨n1, n2, .mul, (n1 : Int) * (n2 : Int)⟩

/-- `handleInputChange`: `e.target.value.replace(/[^0-9-]/g, '')` — every
character that is neither a decimal digit nor `'-'` is removed. -/
def filterInput (s : String) : String :=
  ⟨s.data.filter fun c => ('0' ≤ c && c ≤ '9') || c == '-'⟩

/-- Numeric value of a decimal digit character (code point minus 48). -/
def digitVal (c : Char) : Nat := c.toNat - 48

/-- ASCII decimal digit test, mirroring the regex class `[0-9]`. -/
def isDigitC (c : Char) : Bool := '0' ≤ c && c ≤ '9'

/-- JavaScript `parseInt(s, 10)`: skip leading whitespace, read an optional
sign, then the longest prefix of decimal digits; `NaN` (here `none`) when no
digit follows. -/
def parseIntJS (s : String) : Option Int :=
  let cs := s.data.dropWhile fun c => c == ' ' || c == '\t' || c == '\n' || c == '\r'
  let signed : Int × List Char :=
    match cs with
    | '-' :: rest => (-1, rest)
    | '+' :: rest => (1, rest)
    | rest => (1, rest)
  let ds := signed.2.takeWhile isDigitC
  if ds.isEmpty then none
  else some (signed.1 * (ds.foldl (fun a c => a * 10 + digitVal c) 0 : Nat))

/-- `HOLD_DURATION` from HoldButton. -/
def HOLD_DURATION : Nat := 3000

/-- `UPDATE_INTERVAL` from HoldButton. -/
def UPDATE_INTERVAL : Nat := 50

/-- The fixed delay of `setTimeout(onCancel, 1500)` in `handleSubmit`. -/
def CANCEL_DELAY : Nat := 1500

/-- State of one parental-gate activation, combining the `ParentalGate`
component state (`userAnswer`, `attempts`, `showError`), the `HoldButton`
state (`isHolding`/interval, elapsed time), the visibility of the overlay in
`App` (`isOpen`, i.e. `showParentalGate`), and bookkeeping for the pending
`setTimeout(onCancel, 1500)` actions (`pendingCancels` counts armed, not yet
fired timers; `armedCount` counts all arms in this activation;
`firedWhileClosed` records a timer firing after the overlay closed). -/
structure GateState where
  isOpen : Bool
  attempts : Nat
  userAnswer : String
  showError : Bool
  holdActive : Bool
  holdElapsed : Nat
  pendingCancels : Nat
  armedCount : Nat
  succeeded : Bool
  cancelled : Bool
  firedWhileClosed : Bool
deriving DecidableEq

/-- Fresh state of a gate activation: overlay open, no attempts, empty input. -/
def initGate : GateState :=
  ⟨true, 0, "", false, false, 0, 0, 0, false, false, false⟩

/-- Discrete events driving one gate activation. `holdTick` is one 50 ms
interval callback; `cancelFire` is the elapse of one pending
`setTimeout(onCancel, 1500)`. -/
inductive GateEvent where
  | inputChange (v : String)
  | submit
  | holdPress
  | holdRelease
  | holdTick
  | cancelClick
  | cancelFire

/-- One step of the gate activation.  UI events (`inputChange`, `submit`,
`holdPress`, `holdRelease`, `cancelClick`) require the overlay to be mounted
(`isOpen`); `holdTick` additionally requires a running interval, which the
unmount cleanup and `stopHold` both clear; `cancelFire` requires an armed
timer and is the only event possible after close (`setTimeout` survives
unmount).  `onSuccess`/`onCancel` close the overlay in `App`
(`setShowParentalGate(false)`). -/
def gateStep (p : MathProblem) (e : GateEvent) (s : GateState) : GateState :=
  match e with
  | .inputChange v =>
      if s.isOpen then { s with userAnswer := filterInput v, showError := false } else s
  | .submit =>
      if s.isOpen then
        -- `parsed === mathProblem.answer` is false when parseInt returned NaN
        if parseIntJS s.userAnswer = some p.answer then
          { s with isOpen := false, succeeded := true }
        else
          { s with
            attempts := s.attempts + 1
            showError := true
            userAnswer := ""
            -- `if (attempts >= 2) setTimeout(onCancel, 1500)` reads the stale
            -- counter, so the timer is armed on the 3rd, 4th, ... miss
            pendingCancels := s.pendingCancels + (if s.attempts ≥ 2 then 1 else 0)
            armedCount := s.armedCount + (if s.attempts ≥ 2 then 1 else 0) }
      else s
  | .holdPress =>
      if s.isOpen then { s with holdActive := true, holdElapsed := 0 } else s
  | .holdRelease =>
      if s.isOpen then { s with holdActive := false, holdElapsed := 0 } else s
  | .holdTick =>
      if s.isOpen && s.holdActive then
        let elapsed := s.holdElapsed + UPDATE_INTERVAL
        if HOLD_DURATION ≤ elapsed then
          { s with holdElapsed := elapsed, holdActive := false, isOpen := false, succeeded := true }
        else
          { s with holdElapsed := elapsed }
      else s
  | .cancelClick =>
      if s.isOpen then { s with isOpen := false, cancelled := true } else s
  | .cancelFire =>
      if s.pendingCancels > 0 then
        if s.isOpen then
          { s with pendingCancels := s.pendingCancels - 1, isOpen := false, cancelled := true }
        else
          { s with pendingCancels := s.pendingCancels - 1, firedWhileClosed := true }
      else s

/-- Run a list of events from a given state. -/
def gateRunFrom (p : MathProblem) (s : GateState) (es : List GateEvent) : GateState :=
  es.foldl (fun s e => gateStep p e s) s

/-- Run a whole activation from the fresh state. -/
def gateRun (p : MathProblem) (es : List GateEvent) : GateState :=
  gateRunFrom p initGate es

/-! ## Playback fallback controller (src/components/VideoPlayer.jsx) -/

/-- State of one playback session: `useLocalVideo` is the source mode
(`false` = Remote/YouTube, `true` = Local), plus `isLoading` and `hasError`. -/
structure PlayerState where
  useLocalVideo : Bool
  isLoading : Bool
  hasError : Bool
deriving DecidableEq

/-- Session state on entering the player: remote source, loading, no error. -/
def initPlayer : PlayerState := ⟨false, true, false⟩

/-- Media callbacks delivered to the session.  The YouTube element is mounted
only while `!useLocalVideo`, the `<video>` element only while `useLocalVideo`,
so each callback is a no-op when its element is unmounted. -/
inductive PlayerEvent where
  | remoteReady
  | remoteError
  | remoteEnd
  | localLoaded
  | localPlayReject
  | localError
  | localEnd

/-- One step of the playback session.  `handleReady` clears loading;
`handleError` switches to the local source (`setUseLocalVideo(true)`,
`setIsLoading(true)`, `setHasError(false)`); `handleLocalVideoReady` clears
loading (a rejected `play()` promise is the separate `localPlayReject` event,
which sets the error flag); `handleLocalVideoError` sets the error flag and
clears loading; the end callbacks only seek and replay. -/
def playerStep (e : PlayerEvent) (s : PlayerState) : PlayerState :=
  match e with
  | .remoteReady => if s.useLocalVideo then s else { s with isLoading := false }
  | .remoteError => if s.useLocalVideo then s else ⟨true, true, false⟩
  | .remoteEnd => s
  | .localLoaded => if s.useLocalVideo then { s with isLoading := false } else s
  | .localPlayReject => if s.useLocalVideo then { s with hasError := true } else s
  | .localError => if s.useLocalVideo then { s with hasError := true, isLoading := false } else s
  | .localEnd => s

/-- Run a list of media callbacks from a given session state. -/
def playerRunFrom (s : PlayerState) (es : List PlayerEvent) : PlayerState :=
  es.foldl (fun s e => playerStep e s) s

/-! ## Settings panel (src/components/SettingsPanel.jsx) and App library ops -/

/-- Whitespace characters stripped by `trim`. -/
def isWsChar (c : Char) : Bool :=
  c == ' ' || c == '\t' || c == '\n' || c == '\r' || c == '\x0c' || c == '\x0b'

/-- The regex character class `[a-zA-Z0-9_-]` of YouTube video ids. -/
def idChar (c : Char) : Bool :=
  ('a' ≤ c && c ≤ 'z') || ('A' ≤ c && c ≤ 'Z') || ('0' ≤ c && c ≤ '9') || c == '_' || c == '-'

/-- Attempt to match `lit` followed by exactly 11 id characters at the head of
`cs`; on success yield the 11 captured characters.  This is one candidate
position of the regex `(?:lit)([a-zA-Z0-9_-]{11})`. -/
def matchesAt (lit : List Char) (cs : List Char) : Option (List Char) :=
  if lit.isPrefixOf cs then
    let cand := (cs.drop lit.length).take 11
    if cand.length = 11 && cand.all idChar then some cand else none
  else none

/-- Leftmost match of the regex `(?:lit)([a-zA-Z0-9_-]{11})` in `cs`
(JavaScript `String.prototype.match` semantics for these patterns). -/
def findCapture (lit : List Char) : List Char → Option (List Char)
  | [] => matchesAt lit []
  | c :: t =>
      match matchesAt lit (c :: t) with
      | some r => some r
      | none => findCapture lit t

/-- `extractVideoId` from SettingsPanel.jsx: the bare 11-character test
`/^[a-zA-Z0-9_-]{11}$/`, then the four URL patterns in order
(`watch?v=`, `youtu.be/`, `embed/`, `v/`), else `null`. -/
def extractVideoId (input : String) : Option String :=
  let cs := input.data
  if cs.length = 11 && cs.all idChar then some input
  else
    match findCapture "youtube.com/watch?v=".data cs with
    | some r => some ⟨r⟩
    | none =>
      match findCapture "youtu.be/".data cs with
      | some r => some ⟨r⟩
      | none =>
        match findCapture "youtube.com/embed/".data cs with
        | some r => some ⟨r⟩
        | none =>
          match findCapture "youtube.com/v/".data cs with
          | some r => some ⟨r⟩
          | none => none

/-- JavaScript `String.prototype.trim`: strip leading and trailing
whitespace (modelled over the ASCII whitespace characters). -/
def trimJS (s : String) : String :=
  ⟨((s.data.dropWhile isWsChar).reverse.dropWhile isWsChar).reverse⟩

/-- A video entry `{id, title, emoji, color}`. -/
structure VideoEntry where
  id : String
  title : String
  emoji : String
  color : String
deriving DecidableEq

/-- `handleAddVideo` from App.jsx: `setVideoLibrary((prev) => [...prev,
newVideo])` — an unconditional append. -/
def appAddVideo (lib : List VideoEntry) (e : VideoEntry) : List VideoEntry :=
  lib ++ [e]

/-- `handleAddVideo` from SettingsPanel.jsx combined with the App-level append
it invokes on success: trim and extract the id, reject a failed extraction, an
empty trimmed title, or an id already in `videos`; otherwise hand the new
entry to `onAddVideo`.  Returns the resulting library and the inline error
message (`none` on success). -/
def settingsAddVideo (videos : List VideoEntry) (rawId title emoji color : String) :
    List VideoEntry × Option String :=
  match extractVideoId (trimJS rawId) with
  | none => (videos, some "Invalid YouTube video ID or URL")
  | some vid =>
    if (trimJS title) = "" then
      (videos, some "Please enter a title")
    else if videos.any fun v => v.id = vid then
      (videos, some "This video is already in the library")
    else
      (appAddVideo videos ⟨vid, (trimJS title), emoji, color⟩, none)

/-- `handleRemoveVideo` from App.jsx: `prev.filter((v) => v.id !== videoId)`. -/
def appRemoveVideo (lib : List VideoEntry) (videoId : String) : List VideoEntry :=
  lib.filter fun v => v.id ≠ videoId

/-! ## Library persistence (src/App.jsx)

`App` keeps `videoLibrary` in React state, initialised from
`localStorage.getItem('kidsVideoLibrary')` via `JSON.parse` with a `catch`
falling back to the default `videos.json` array, and writes it back with
`localStorage.setItem('kidsVideoLibrary', JSON.stringify(videoLibrary))`.
The host's `JSON.parse` / `JSON.stringify` are modelled by an executable
JSON printer and recursive-descent parser over `List Char`. -/

/-- JSON values as produced by `JSON.parse`.  Number literals are kept as
their source text, since no code in the repository computes with a numeric
field of the persisted payload. -/
inductive Json where
  | jnull
  | jbool (b : Bool)
  | jnum (lit : String)
  | jstr (s : String)
  | jarr (elems : List Json)
  | jobj (members : List (String × Json))

/-- Lowercase hexadecimal digit, as used by `JSON.stringify` in `\u00XX`
escapes. -/
def hexDigit (n : Nat) : Char :=
  if n < 10 then Char.ofNat ('0'.toNat + n) else Char.ofNat ('a'.toNat + (n - 10))

/-- `JSON.stringify` escaping of one string character: `\"`, `\\`, the
two-character control escapes `\b \t \n \f \r`, `\u00XX` for the remaining
control characters, every other character literal. -/
def escapeChar (c : Char) : List Char :=
  if c = '"' then ['\\', '"']
  else if c = '\\' then ['\\', '\\']
  else if c = '\x08' then ['\\', 'b']
  else if c = '\t' then ['\\', 't']
  else if c = '\n' then ['\\', 'n']
  else if c = '\x0c' then ['\\', 'f']
  else if c = '\r' then ['\\', 'r']
  else if c.toNat < 32 then
    ['\\', 'u', '0', '0', hexDigit (c.toNat / 16), hexDigit (c.toNat % 16)]
  else [c]

/-- `JSON.stringify` escaping of a whole string body. -/
def escapeList : List Char → List Char
  | [] => []
  | c :: t => escapeChar c ++ escapeList t

mutual

/-- `JSON.stringify` (compact form, no indent argument, as called in App). -/
def printJson : Json → List Char
  | .jnull => ['n', 'u', 'l', 'l']
  | .jbool true => ['t', 'r', 'u', 'e']
  | .jbool false => ['f', 'a', 'l', 's', 'e']
  | .jnum lit => lit.data
  | .jstr s => '"' :: escapeList s.data ++ ['"']
  | .jarr es => '[' :: printElems es ++ [']']
  | .jobj ms => '{' :: printMembers ms ++ ['}']

/-- Comma-separated array elements. -/
def printElems : List Json → List Char
  | [] => []
  | [v] => printJson v
  | v :: rest => printJson v ++ ',' :: printElems rest

/-- Comma-separated object members `"key":value`. -/
def printMembers : List (String × Json) → List Char
  | [] => []
  | [(k, v)] => '"' :: escapeList k.data ++ '"' :: ':' :: printJson v
  | (k, v) :: rest =>
      ('"' :: escapeList k.data ++ '"' :: ':' :: printJson v) ++ ',' :: printMembers rest

end

/-- Skip JSON whitespace (space, tab, line feed, carriage return). -/
def skipWs : List Char → List Char
  | [] => []
  | c :: t => if c = ' ' || c = '\t' || c = '\n' || c = '\r' then skipWs t else c :: t

/-- Value of one hexadecimal digit character, if any (digits, then the
lowercase and the uppercase letter ranges, by code point). -/
def hexVal (c : Char) : Option Nat :=
  let n := c.toNat
  if 48 ≤ n && n ≤ 57 then some (n - 48)
  else if 97 ≤ n && n ≤ 102 then some (n - 87)
  else if 65 ≤ n && n ≤ 70 then some (n - 55)
  else none

/-- Body of a JSON string after the opening quote: literal characters up to
the closing quote, with the standard escapes.  Raw control characters are a
parse error, as in `JSON.parse`.  (`\uXXXX` maps through `Char.ofNat`; UTF-16
surrogate halves, which `List Char` cannot carry, fall to its default.)
Returns the decoded characters and the input after the closing quote. -/
def parseStringBody (cs : List Char) : Option (List Char × List Char) :=
  match cs with
  | [] => none
  | c :: rest =>
      if c = '"' then some ([], rest)
      else if c = '\\' then
        match rest with
        | 'u' :: h1 :: h2 :: h3 :: h4 :: r1 =>
            (match hexVal h1, hexVal h2, hexVal h3, hexVal h4 with
             | some v1, some v2, some v3, some v4 =>
                 (match parseStringBody r1 with
                  | some (s, r) => some (Char.ofNat (v1 * 4096 + v2 * 256 + v3 * 16 + v4) :: s, r)
                  | none => none)
             | _, _, _, _ => none)
        | e :: r1 =>
            let dec : Option Char :=
              if e = '"' then some '"'
              else if e = '\\' then some '\\'
              else if e = '/' then some '/'
              else if e = 'b' then some '\x08'
              else if e = 'f' then some '\x0c'
              else if e = 'n' then some '\n'
              else if e = 'r' then some '\r'
              else if e = 't' then some '\t'
              else none
            (match dec with
             | some c2 =>
                 (match parseStringBody r1 with
                  | some (s, r) => some (c2 :: s, r)
                  | none => none)
             | none => none)
        | [] => none
      else if c.toNat < 32 then none
      else
        match parseStringBody rest with
        | some (s, r) => some (c :: s, r)
        | none => none
termination_by structural cs

/-- Fractional part `.digits…` of a JSON number literal (empty if absent). -/
def parseFrac (cs : List Char) : Option (List Char × List Char) :=
  match cs with
  | '.' :: t =>
      let ds := t.takeWhile isDigitC
      if ds.isEmpty then none else some ('.' :: ds, t.drop ds.length)
  | _ => some ([], cs)

/-- Exponent part `e|E [+|-] digits…` of a JSON number literal. -/
def parseExponent (cs : List Char) : Option (List Char × List Char) :=
  match cs with
  | c :: t =>
      if c = 'e' || c = 'E' then
        let signed : List Char × List Char :=
          match t with
          | '+' :: t2 => (['+'], t2)
          | '-' :: t2 => (['-'], t2)
          | t2 => ([], t2)
        let ds := signed.2.takeWhile isDigitC
        if ds.isEmpty then none
        else some (c :: signed.1 ++ ds, signed.2.drop ds.length)
      else some ([], cs)
  | [] => some ([], cs)

/-- Integer part of a JSON number literal: `0` or a nonzero digit followed by
digits. -/
def parseIntPart (cs : List Char) : Option (List Char × List Char) :=
  match cs with
  | '0' :: t => some (['0'], t)
  | c :: t =>
      if isDigitC c then
        let ds := t.takeWhile isDigitC
        some (c :: ds, t.drop ds.length)
      else none
  | [] => none

/-- A JSON number literal `-? int frac? exp?`; returns the literal text. -/
def parseNumberLit (cs : List Char) : Option (List Char × List Char) :=
  let signed : List Char × List Char :=
    match cs with
    | '-' :: t => (['-'], t)
    | _ => ([], cs)
  match parseIntPart signed.2 with
  | none => none
  | some (ip, r1) =>
      match parseFrac r1 with
      | none => none
      | some (fp, r2) =>
          match parseExponent r2 with
          | none => none
          | some (ep, r3) => some (signed.1 ++ ip ++ fp ++ ep, r3)

mutual

/-- Recursive-descent JSON value parser, fuelled to make the recursion
structural; `parseJson` supplies ample fuel. -/
def parseValue : Nat → List Char → Option (Json × List Char)
  | 0, _ => none
  | Nat.succ fuel, cs =>
      match skipWs cs with
      | 'n' :: 'u' :: 'l' :: 'l' :: rest => some (.jnull, rest)
      | 't' :: 'r' :: 'u' :: 'e' :: rest => some (.jbool true, rest)
      | 'f' :: 'a' :: 'l' :: 's' :: 'e' :: rest => some (.jbool false, rest)
      | '"' :: rest =>
          match parseStringBody rest with
          | some (s, r) => some (.jstr ⟨s⟩, r)
          | none => none
      | '[' :: rest =>
          (match skipWs rest with
           | ']' :: r2 => some (.jarr [], r2)
           | _ =>
             match parseElems fuel rest with
             | some (vs, r) => some (.jarr vs, r)
             | none => none)
      | '{' :: rest =>
          (match skipWs rest with
           | '}' :: r2 => some (.jobj [], r2)
           | _ =>
             match parseMembers fuel rest with
             | some (ms, r) => some (.jobj ms, r)
             | none => none)
      | c :: rest =>
          if c = '-' || isDigitC c then
            match parseNumberLit (c :: rest) with
            | some (lit, r) => some (.jnum ⟨lit⟩, r)
            | none => none
          else none
      | [] => none

/-- Elements of a non-empty JSON array, consuming the closing `]`. -/
def parseElems : Nat → List Char → Option (List Json × List Char)
  | 0, _ => none
  | Nat.succ fuel, cs =>
      match parseValue fuel cs with
      | none => none
      | some (v, rest) =>
          match skipWs rest with
          | ',' :: r2 =>
              (match parseElems fuel r2 with
               | some (vs, r) => some (v :: vs, r)
               | none => none)
          | ']' :: r2 => some ([v], r2)
          | _ => none

/-- Members of a non-empty JSON object, consuming the closing `}`. -/
def parseMembers : Nat → List Char → Option (List (String × Json) × List Char)
  | 0, _ => none
  | Nat.succ fuel, cs =>
      match skipWs cs with
      | '"' :: rest =>
          (match parseStringBody rest with
           | some (k, r1) =>
             match skipWs r1 with
             | ':' :: r2 =>
                 (match parseValue fuel r2 with
                  | some (v, r3) =>
                    match skipWs r3 with
                    | ',' :: r4 =>
                        (match parseMembers fuel r4 with
                         | some (ms, r) => some ((⟨k⟩, v) :: ms, r)
                         | none => none)
                    | '}' :: r4 => some ([(⟨k⟩, v)], r4)
                    | _ => none
                  | none => none)
             | _ => none
           | none => none)
      | _ => none

end

/-- `JSON.parse`: parse one value, allowing only trailing whitespace. -/
def parseJson (s : String) : Option Json :=
  match parseValue (2 * s.data.length + 2) s.data with
  | some (v, rest) => if skipWs rest = [] then some v else none
  | none => none

/-- Encode one `VideoEntry` as the object `JSON.stringify` sees: insertion
order `id`, `title`, `emoji`, `color` (the order of both the `videos.json`
records and the object literal built in SettingsPanel). -/
def encodeEntry (e : VideoEntry) : Json :=
  .jobj [("id", .jstr e.id), ("title", .jstr e.title),
         ("emoji", .jstr e.emoji), ("color", .jstr e.color)]

/-- Encode a whole library as the JSON array `JSON.stringify` sees. -/
def encodeLibrary (lib : List VideoEntry) : Json :=
  .jarr (lib.map encodeEntry)

/-- Read one library entry back from a JSON value. -/
def decodeEntry : Json → Option VideoEntry
  | .jobj [("id", .jstr i), ("title", .jstr t), ("emoji", .jstr em), ("color", .jstr c)] =>
      some ⟨i, t, em, c⟩
  | _ => none

/-- Read a list of entries back from JSON values. -/
def decodeEntries : List Json → Option (List VideoEntry)
  | [] => some []
  | v :: vs =>
      match decodeEntry v with
      | none => none
      | some e =>
          match decodeEntries vs with
          | none => none
          | some es => some (e :: es)

/-- Read a whole library back from a JSON value. -/
def decodeLibrary : Json → Option (List VideoEntry)
  | .jarr vs => decodeEntries vs
  | _ => none

/-- Modelled from the spec: the compiled-in default video sequence
`src/data/videos.json` is not among the repository files available here; the
spec and README describe it as an ordered list of `{id, title, emoji, color}`
records and give the example entry used below. -/
def defaultVideos : List VideoEntry :=
  [⟨"XqZsoesa55w", "Baby Shark", "🦈", "#FF6B6B"⟩]

/-- The `useState` initializer of `videoLibrary` in App.jsx: when
`localStorage.getItem('kidsVideoLibrary')` is absent, use the default
`videos` array; when present, `JSON.parse` it, falling back to the default
array when parsing throws. -/
def loadLibrary : Option String → Json
  | none => encodeLibrary defaultVideos
  | some s =>
      match parseJson s with
      | some v => v
      | none => encodeLibrary defaultVideos

/-- The persistence effect in App.jsx:
`localStorage.setItem('kidsVideoLibrary', JSON.stringify(videoLibrary))`. -/
def persistLibrary (lib : List VideoEntry) : String :=
  ⟨printJson (encodeLibrary lib)⟩

/-- The data-model invariant of a stored entry: an id of exactly 11 URL-safe
characters and a non-empty title. -/
def ValidEntry (e : VideoEntry) : Prop :=
  e.id.data.length = 11 ∧ e.id.data.all idChar = true ∧ e.title ≠ ""

/-- A valid library: valid entries with pairwise-distinct ids. -/
def ValidLibrary (lib : List VideoEntry) : Prop :=
  (∀ e ∈ lib, ValidEntry e) ∧ (lib.map VideoEntry.id).Nodup

/-! ## Theorems: parental gate -/

set_option maxRecDepth 8000

/-- Parsing the (filtered) decimal numeral of a small natural yields it back;
covers every expected answer the challenge can produce (at most 100). -/
theorem parseIntJS_filter_repr :
    ∀ n : Nat, n < 101 → parseIntJS (filterInput (Int.repr n)) = some n := by
  decide

/-- Every challenge answer is a natural number at most 100. -/
theorem mathProblem_answer_small (op : Op) (d1 d2 : Nat) :
    ∃ m : Nat, (mathProblem op d1 d2).answer = (m : Int) ∧ m < 101 := by
  cases op
  · exact ⟨d1 % 20 + 10 + (d2 % 20 + 10), by simp [mathProblem], by omega⟩
  · refine ⟨d1 % 30 + 20 - (d2 % 15 + 5), ?_, by omega⟩
    simp only [mathProblem]
    omega
  · refine ⟨(d1 % 8 + 3) * (d2 % 8 + 3), ?_, ?_⟩
    · simp [mathProblem]
    · have h3 := Nat.mul_le_mul (show d1 % 8 + 3 ≤ 10 by omega) (show d2 % 8 + 3 ≤ 10 by omega)
      omega

/-- A submission whose text parses to the expected answer fires success. -/
theorem gate_submit_exact_succeeds (p : MathProblem) (s : GateState)
    (hopen : s.isOpen = true) (hparse : parseIntJS s.userAnswer = some p.answer) :
    (gateStep p .submit s).succeeded = true := by
  simp [gateStep, hopen, hparse]

/-- C1: every freshly generated challenge satisfies the per-operator table
(`add`: operands in [10,29], answer the sum; `subtract`: left in [20,49],
right in [5,19], answer the always-positive difference; `multiply`: operands
in [3,10], answer the product), and typing exactly the expected answer into
the field and submitting always fires success. -/
theorem gate_challenge_correct (op : Op) (d1 d2 : Nat) :
    (op = .add →
      10 ≤ (mathProblem op d1 d2).num1 ∧ (mathProblem op d1 d2).num1 ≤ 29 ∧
      10 ≤ (mathProblem op d1 d2).num2 ∧ (mathProblem op d1 d2).num2 ≤ 29 ∧
      (mathProblem op d1 d2).answer =
        ((mathProblem op d1 d2).num1 : Int) + ((mathProblem op d1 d2).num2 : Int)) ∧
    (op = .sub →
      20 ≤ (mathProblem op d1 d2).num1 ∧ (mathProblem op d1 d2).num1 ≤ 49 ∧
      5 ≤ (mathProblem op d1 d2).num2 ∧ (mathProblem op d1 d2).num2 ≤ 19 ∧
      (mathProblem op d1 d2).answer =
        ((mathProblem op d1 d2).num1 : Int) - ((mathProblem op d1 d2).num2 : Int) ∧
      0 < (mathProblem op d1 d2).answer) ∧
    (op = .mul →
      3 ≤ (mathProblem op d1 d2).num1 ∧ (mathProblem op d1 d2).num1 ≤ 10 ∧
      3 ≤ (mathProblem op d1 d2).num2 ∧ (mathProblem op d1 d2).num2 ≤ 10 ∧
      (mathProblem op d1 d2).answer =
        ((mathProblem op d1 d2).num1 : Int) * ((mathProblem op d1 d2).num2 : Int)) ∧
    (∀ s : GateState, s.isOpen = true →
      (gateStep (mathProblem op d1 d2) .submit
        (gateStep (mathProblem op d1 d2)
          (.inputChange (Int.repr (mathProblem op d1 d2).answer)) s)).succeeded = true) := by
  refine ⟨?_, ?_, ?_, ?_⟩
  · rintro rfl
    refine ⟨by simp only [mathProblem]; omega, by simp only [mathProblem]; omega,
            by simp only [mathProblem]; omega, by simp only [mathProblem]; omega, by simp [mathProblem]⟩
  · rintro rfl
    refine ⟨by simp only [mathProblem]; omega, by simp only [mathProblem]; omega,
            by simp only [mathProblem]; omega, by simp only [mathProblem]; omega,
            by simp [mathProblem], by simp only [mathProblem]; omega⟩
  · rintro rfl
    refine ⟨by simp only [mathProblem]; omega, by simp only [mathProblem]; omega,
            by simp only [mathProblem]; omega, by simp only [mathProblem]; omega, by simp [mathProblem]⟩
  · intro s hs
    obtain ⟨m, hm, hlt⟩ := mathProblem_answer_small op d1 d2
    have h1 : (gateStep (mathProblem op d1 d2)
        (.inputChange (Int.repr (mathProblem op d1 d2).answer)) s) =
        { s with userAnswer := filterInput (Int.repr (mathProblem op d1 d2).answer),
                 showError := false } := by
      simp [gateStep, hs]
    rw [h1]
    exact gate_submit_exact_succeeds _ _ hs (by rw [hm]; exact parseIntJS_filter_repr m hlt)

/-- Witness for `gate_challenge_correct` at the concrete activation
`(add, 7, 19)` (operands 17, 29, answer 46) and the fresh gate state. -/
theorem gate_challenge_correct_witness :
    (10 ≤ (mathProblem .add 7 19).num1 ∧ (mathProblem .add 7 19).num1 ≤ 29 ∧
      10 ≤ (mathProblem .add 7 19).num2 ∧ (mathProblem .add 7 19).num2 ≤ 29 ∧
      (mathProblem .add 7 19).answer =
        ((mathProblem .add 7 19).num1 : Int) + ((mathProblem .add 7 19).num2 : Int)) ∧
    (gateStep (mathProblem .add 7 19) .submit
      (gateStep (mathProblem .add 7 19)
        (.inputChange (Int.repr (mathProblem .add 7 19).answer)) initGate)).succeeded = true :=
  ⟨(gate_challenge_correct .add 7 19).1 rfl,
   (gate_challenge_correct .add 7 19).2.2.2 initGate rfl⟩

/-- C2: every wrong submission increments the attempt counter, clears the
input and shows the error; the delayed cancel is armed exactly from the 3rd
cumulative wrong submission on — concretely, after one or two wrong
submissions from a fresh activation no timer is pending, after the third one
is — an armed timer's elapse cancels the gate, and the delay is the fixed
1.5 s. -/
theorem gate_third_wrong_arms_delayed_cancel (p : MathProblem) :
    (∀ s : GateState, s.isOpen = true → ¬ parseIntJS s.userAnswer = some p.answer →
      (gateStep p .submit s).attempts = s.attempts + 1 ∧
      (gateStep p .submit s).userAnswer = "" ∧
      (gateStep p .submit s).showError = true ∧
      (gateStep p .submit s).pendingCancels =
        s.pendingCancels + (if 3 ≤ s.attempts + 1 then 1 else 0)) ∧
    (gateRun p [.submit]).pendingCancels = 0 ∧
    (gateRun p [.submit, .submit]).pendingCancels = 0 ∧
    (gateRun p [.submit, .submit, .submit]).pendingCancels = 1 ∧
    (∀ s : GateState, 0 < s.pendingCancels → s.isOpen = true →
      (gateStep p .cancelFire s).cancelled = true) ∧
    CANCEL_DELAY = 1500 := by
  have hempty : ¬ parseIntJS "" = some p.answer := by simp [parseIntJS]
  refine ⟨?_, ?_, ?_, ?_, ?_, rfl⟩
  · intro s hs hm
    simp [gateStep, hs, hm]
  · simp [gateRun, gateRunFrom, gateStep, initGate, hempty]
  · simp [gateRun, gateRunFrom, gateStep, initGate, hempty]
  · simp [gateRun, gateRunFrom, gateStep, initGate, hempty]
  · intro s hp hs
    simp [gateStep, hs, hp]

/-- Witness for `gate_third_wrong_arms_delayed_cancel`: a wrong submission
(`"25"` against answer 26) with two prior misses arms the timer, and a
pending timer's elapse cancels the open gate. -/
theorem gate_third_wrong_witness :
    (gateStep ⟨17, 9, .add, 26⟩ .submit
        { initGate with userAnswer := "25", attempts := 2 }).pendingCancels =
      0 + (if 3 ≤ 2 + 1 then 1 else 0) ∧
    (gateStep ⟨17, 9, .add, 26⟩ .cancelFire
        { initGate with pendingCancels := 1 }).cancelled = true :=
  ⟨((gate_third_wrong_arms_delayed_cancel ⟨17, 9, .add, 26⟩).1
      { initGate with userAnswer := "25", attempts := 2 } rfl (by decide)).2.2.2,
   (gate_third_wrong_arms_delayed_cancel ⟨17, 9, .add, 26⟩).2.2.2.2.1
      { initGate with pendingCancels := 1 } (by decide) rfl⟩

/-- C8 counterexample: the filter `/[^0-9-]/g` keeps the hyphen, so changing
the answer field to `"-5"` stores `"-5"` — a non-digit character survives and
the parsed value `-5` is not computed from digit characters only. -/
theorem gate_input_filter_counterexample :
    (gateStep (mathProblem .add 0 0) (.inputChange "-5") initGate).userAnswer = "-5" ∧
    ¬ ('0' ≤ '-' ∧ '-' ≤ '9') ∧
    parseIntJS "-5" = some (-5) := by
  decide

/-- C8 amended: on every change to the answer field the stored value is the
input with every character other than a decimal digit or `'-'` discarded
(digit-only inputs pass through unchanged). -/
theorem gate_input_filter_amended (p : MathProblem) :
    (∀ (s : GateState) (v : String), s.isOpen = true →
      (gateStep p (.inputChange v) s).userAnswer = filterInput v) ∧
    (∀ (v : String), ∀ c ∈ (filterInput v).data, ('0' ≤ c ∧ c ≤ '9') ∨ c = '-') ∧
    (∀ v : String, (∀ c ∈ v.data, '0' ≤ c ∧ c ≤ '9') → filterInput v = v) := by
  refine ⟨?_, ?_, ?_⟩
  · intro s v hs
    simp [gateStep, hs]
  · intro v c hc
    have := (List.mem_filter.mp hc).2
    rcases Bool.or_eq_true_iff.mp this with h | h
    · rcases Bool.and_eq_true_iff.mp h with ⟨h1, h2⟩
      exact Or.inl ⟨by simpa using h1, by simpa using h2⟩
    · exact Or.inr (by simpa using h)
  · intro v hv
    have : v.data.filter (fun c => ('0' ≤ c && c ≤ '9') || c == '-') = v.data := by
      apply List.filter_eq_self.mpr
      intro c hc
      rcases hv c hc with ⟨h1, h2⟩
      simp [h1, h2]
    show String.mk _ = v
    rw [this]

/-- Witness for `gate_input_filter_amended` at the fresh state and the input
`"a26b"`, which filters to `"26"`. -/
theorem gate_input_filter_amended_witness :
    (gateStep (mathProblem .add 0 0) (.inputChange "a26b") initGate).userAnswer =
      filterInput "a26b" ∧
    filterInput "26" = "26" :=
  ⟨(gate_input_filter_amended (mathProblem .add 0 0)).1 initGate "a26b" rfl,
   (gate_input_filter_amended (mathProblem .add 0 0)).2.2 "26" (by decide)⟩

/-- Unfolding one step of a gate run. -/
theorem gateRunFrom_cons (p : MathProblem) (s : GateState) (e : GateEvent)
    (es : List GateEvent) :
    gateRunFrom p s (e :: es) = gateRunFrom p (gateStep p e s) es := rfl

/-- No gate event ever un-fires success. -/
theorem gateStep_succeeded_mono (p : MathProblem) (e : GateEvent) (s : GateState)
    (h : s.succeeded = true) : (gateStep p e s).succeeded = true := by
  cases e <;> simp only [gateStep] <;> (repeat' split) <;> simp [h]

/-- No run of gate events ever un-fires success. -/
theorem gateRunFrom_succeeded_mono (p : MathProblem) (es : List GateEvent) (s : GateState)
    (h : s.succeeded = true) : (gateRunFrom p s es).succeeded = true := by
  induction es generalizing s with
  | nil => exact h
  | cons e es ih => exact ih _ (gateStep_succeeded_mono p e s h)

/-- From an open state with the interval running, `k` interval ticks fire
success as soon as the accumulated hold time reaches `HOLD_DURATION`. -/
theorem gate_hold_ticks_succeed (p : MathProblem) :
    ∀ (k : Nat) (s : GateState), s.isOpen = true → s.holdActive = true →
      1 ≤ k → HOLD_DURATION ≤ s.holdElapsed + UPDATE_INTERVAL * k →
      (gateRunFrom p s (List.replicate k .holdTick)).succeeded = true := by
  intro k
  induction k with
  | zero => omega
  | succ k ih =>
    intro s hopen hactive _ htime
    rw [List.replicate_succ, gateRunFrom_cons]
    by_cases hdone : HOLD_DURATION ≤ s.holdElapsed + UPDATE_INTERVAL
    · have hstep : (gateStep p .holdTick s).succeeded = true := by
        simp [gateStep, hopen, hactive, hdone]
      exact gateRunFrom_succeeded_mono p _ _ hstep
    · have hstep : gateStep p .holdTick s =
          { s with holdElapsed := s.holdElapsed + UPDATE_INTERVAL } := by
        simp [gateStep, hopen, hactive, hdone]
      rw [hstep]
      apply ih
      · exact hopen
      · exact hactive
      · by_contra hk
        have hk0 : k = 0 := by omega
        subst hk0
        simp only [UPDATE_INTERVAL, HOLD_DURATION] at htime hdone
        omega
      · show HOLD_DURATION ≤ s.holdElapsed + UPDATE_INTERVAL + UPDATE_INTERVAL * k
        simp only [UPDATE_INTERVAL, HOLD_DURATION] at *
        omega

/-- C3: releasing the hold control never fires success and resets the
accumulated progress to zero; pressing starts from zero (no partial credit
across presses); a tick that keeps the continuous hold under 3000 ms never
fires success; and from any open state — in particular with any number of
Path A wrong attempts on the counter — pressing and holding for 60
uninterrupted 50 ms ticks (3000 ms) fires success. -/
theorem gate_hold_timing (p : MathProblem) :
    (∀ s : GateState, s.isOpen = true →
      (gateStep p .holdRelease s).holdElapsed = 0 ∧
      (gateStep p .holdRelease s).succeeded = s.succeeded) ∧
    (∀ s : GateState, s.isOpen = true → (gateStep p .holdPress s).holdElapsed = 0) ∧
    (∀ s : GateState, s.isOpen = true → s.holdActive = true →
      s.holdElapsed + UPDATE_INTERVAL < HOLD_DURATION →
      (gateStep p .holdTick s).succeeded = s.succeeded) ∧
    (∀ s : GateState, s.isOpen = true →
      (gateRunFrom p s (GateEvent.holdPress :: List.replicate 60 .holdTick)).succeeded = true) ∧
    HOLD_DURATION = 3000 ∧ UPDATE_INTERVAL = 50 := by
  refine ⟨?_, ?_, ?_, ?_, rfl, rfl⟩
  · intro s hs
    simp [gateStep, hs]
  · intro s hs
    simp [gateStep, hs]
  · intro s hopen hactive hlt
    simp [gateStep, hopen, hactive, Nat.not_le.mpr hlt]
  · intro s hs
    rw [gateRunFrom_cons]
    have hstep : gateStep p .holdPress s = { s with holdActive := true, holdElapsed := 0 } := by
      simp [gateStep, hs]
    rw [hstep]
    exact gate_hold_ticks_succeed p 60 _ hs rfl (by omega)
      (by show HOLD_DURATION ≤ 0 + UPDATE_INTERVAL * 60; decide)

/-- Witness for `gate_hold_timing` at the fresh activation and at a state
with two wrong attempts already on the counter. -/
theorem gate_hold_timing_witness :
    (gateStep (mathProblem .add 0 0) .holdRelease initGate).holdElapsed = 0 ∧
    (gateRunFrom (mathProblem .add 0 0) { initGate with attempts := 2 }
      (GateEvent.holdPress :: List.replicate 60 .holdTick)).succeeded = true :=
  ⟨((gate_hold_timing (mathProblem .add 0 0)).1 initGate rfl).1,
   (gate_hold_timing (mathProblem .add 0 0)).2.2.2.1 { initGate with attempts := 2 } rfl⟩

/-- C9 counterexample: from a fresh activation, three wrong submissions
followed by a manual cancel close the gate, yet the pending 1.5 s cancel
still fires against the closed gate; and four wrong submissions arm the
delay twice in one activation. -/
theorem gate_cancel_timer_counterexample :
    (gateRun (mathProblem .add 0 0)
        [.submit, .submit, .submit, .cancelClick, .cancelFire]).firedWhileClosed = true ∧
    (gateRun (mathProblem .add 0 0)
        [.submit, .submit, .submit, .submit]).armedCount = 2 := by
  decide

/-- C9 amended: the delayed cancel is armed on every wrong submission from
the third onward (possibly several times in one activation) and is never
cleared — no event other than its own elapse decreases the pending count, so
closing the gate by success or manual cancel leaves it pending, and its later
elapse fires against the already-closed gate. -/
theorem gate_cancel_timer_amended (p : MathProblem) :
    (∀ s : GateState, s.isOpen = true → ¬ parseIntJS s.userAnswer = some p.answer →
      (gateStep p .submit s).pendingCancels =
        s.pendingCancels + (if 3 ≤ s.attempts + 1 then 1 else 0)) ∧
    (∀ (s : GateState) (v : String),
      (gateStep p (.inputChange v) s).pendingCancels = s.pendingCancels ∧
      (gateStep p .holdPress s).pendingCancels = s.pendingCancels ∧
      (gateStep p .holdRelease s).pendingCancels = s.pendingCancels ∧
      (gateStep p .holdTick s).pendingCancels = s.pendingCancels ∧
      (gateStep p .cancelClick s).pendingCancels = s.pendingCancels) ∧
    (∀ s : GateState, 0 < s.pendingCancels → s.isOpen = false →
      (gateStep p .cancelFire s).firedWhileClosed = true) := by
  refine ⟨?_, ?_, ?_⟩
  · intro s hs hm
    simp [gateStep, hs, hm]
  · intro s v
    refine ⟨?_, ?_, ?_, ?_, ?_⟩ <;> simp only [gateStep] <;> (repeat' split) <;> simp
  · intro s hp hs
    simp [gateStep, hs, hp]

/-- Witness for `gate_cancel_timer_amended`: the third wrong submission from
two prior misses arms the timer, and a pending timer fires against a closed
gate. -/
theorem gate_cancel_timer_amended_witness :
    (gateStep (mathProblem .add 0 0) .submit
        { initGate with attempts := 2 }).pendingCancels = 0 + (if 3 ≤ 2 + 1 then 1 else 0) ∧
    (gateStep (mathProblem .add 0 0) .cancelFire
        { initGate with isOpen := false, pendingCancels := 1 }).firedWhileClosed = true :=
  ⟨(gate_cancel_timer_amended (mathProblem .add 0 0)).1 { initGate with attempts := 2 }
      rfl (by decide),
   (gate_cancel_timer_amended (mathProblem .add 0 0)).2.2
      { initGate with isOpen := false, pendingCancels := 1 } (by decide) rfl⟩

/-! ## Theorems: playback fallback -/

/-- C6: a remote error in remote mode performs the single switch to local
mode (loading set, error cleared); local mode is absorbing (no event returns
the session to the remote source); a local error in local mode sets the
terminal error flag, which no later event clears; and the only event that
ever switches a remote-mode session to local mode is the remote error. -/
theorem playback_single_fallback :
    (∀ s : PlayerState, s.useLocalVideo = false →
      playerStep .remoteError s = ⟨true, true, false⟩) ∧
    (∀ (s : PlayerState) (e : PlayerEvent), s.useLocalVideo = true →
      (playerStep e s).useLocalVideo = true) ∧
    (∀ s : PlayerState, s.useLocalVideo = true →
      (playerStep .localError s).hasError = true) ∧
    (∀ (s : PlayerState) (e : PlayerEvent), s.useLocalVideo = true → s.hasError = true →
      (playerStep e s).hasError = true) ∧
    (∀ (s : PlayerState) (e : PlayerEvent), s.useLocalVideo = false →
      (playerStep e s).useLocalVideo = true → e = .remoteError) := by
  refine ⟨?_, ?_, ?_, ?_, ?_⟩
  · intro s h
    simp [playerStep, h]
  · intro s e h
    cases e <;> simp [playerStep, h]
  · intro s h
    simp [playerStep, h]
  · intro s e h he
    cases e <;> simp [playerStep, h, he]
  · intro s e h hl
    cases e <;> simp [playerStep, h] at hl ⊢

/-- Witness for `playback_single_fallback` at the fresh session: the remote
error switches to local, then a local error is terminal. -/
theorem playback_single_fallback_witness :
    playerStep .remoteError initPlayer = ⟨true, true, false⟩ ∧
    (playerStep .localError (playerStep .remoteError initPlayer)).hasError = true :=
  ⟨playback_single_fallback.1 initPlayer rfl,
   playback_single_fallback.2.2.1 (playerStep .remoteError initPlayer) rfl⟩

/-! ## Theorems: id extraction and add-video -/

/-- A candidate position whose first character differs from the pattern
literal's first character is not a match. -/
theorem matchesAt_cons_ne (a c : Char) (lit t : List Char) (h : c ≠ a) :
    matchesAt (a :: lit) (c :: t) = none := by
  have hbe : (a == c) = false := beq_eq_false_iff_ne.mpr (Ne.symm h)
  simp [matchesAt, List.isPrefixOf, hbe]

/-- A failed candidate position moves the scan one character right. -/
theorem findCapture_cons_none (lit : List Char) (c : Char) (t : List Char)
    (h : matchesAt lit (c :: t) = none) :
    findCapture lit (c :: t) = findCapture lit t := by
  simp [findCapture, h]

/-- The scan skips any prefix whose characters all differ from the pattern
literal's first character. -/
theorem findCapture_skip (a : Char) (lit : List Char) :
    ∀ (pre cs : List Char), (∀ c ∈ pre, c ≠ a) →
      findCapture (a :: lit) (pre ++ cs) = findCapture (a :: lit) cs := by
  intro pre
  induction pre with
  | nil => intro cs _; rfl
  | cons c t ih =>
    intro cs h
    rw [List.cons_append,
        findCapture_cons_none _ _ _ (matchesAt_cons_ne a c lit _ (h c (by simp))),
        ih cs (fun x hx => h x (by simp [hx]))]

/-- At the position where the literal itself starts, followed by exactly the
11 id characters, the match succeeds and captures them. -/
theorem matchesAt_exact (lit idl : List Char) (hlen : idl.length = 11)
    (hall : idl.all idChar = true) :
    matchesAt lit (lit ++ idl) = some idl := by
  simp only [matchesAt]
  rw [if_pos (List.isPrefixOf_iff_prefix.mpr (List.prefix_append _ _)), List.drop_left,
      ← hlen, List.take_length, if_pos (by simp [hlen, hall])]

/-- The scan finds the literal-plus-id occurrence at its own position. -/
theorem findCapture_found (a : Char) (lit idl : List Char) (hlen : idl.length = 11)
    (hall : idl.all idChar = true) :
    findCapture (a :: lit) ((a :: lit) ++ idl) = some idl := by
  have hm := matchesAt_exact (a :: lit) idl hlen hall
  rw [List.cons_append] at hm ⊢
  simp [findCapture, hm]

/-- A pattern literal containing a non-id character can never match inside a
string made of id characters only. -/
theorem findCapture_none_of_clean (lit : List Char) (b : Char) (hb : b ∈ lit)
    (hbad : idChar b = false) :
    ∀ cs : List Char, cs.all idChar = true → findCapture lit cs = none := by
  have hma : ∀ cs : List Char, cs.all idChar = true → matchesAt lit cs = none := by
    intro cs hcs
    simp only [matchesAt]
    rw [if_neg]
    intro hpre
    have hmem : b ∈ cs := (List.isPrefixOf_iff_prefix.mp hpre).subset hb
    have := (List.all_eq_true.mp hcs) b hmem
    simp [hbad] at this
  intro cs
  induction cs with
  | nil => intro h; exact hma [] h
  | cons c t ih =>
    intro h
    rw [findCapture_cons_none _ _ _ (hma _ h), ih (by simp_all)]

/-- A successful match always captures exactly 11 id characters. -/
theorem matchesAt_spec (lit cs r : List Char) (h : matchesAt lit cs = some r) :
    r.length = 11 ∧ r.all idChar = true := by
  simp only [matchesAt] at h
  split at h
  · split at h
    · rename_i hcond
      cases h
      have hc := Bool.and_eq_true_iff.mp hcond
      exact ⟨of_decide_eq_true hc.1, hc.2⟩
    · cases h
  · cases h

/-- A successful scan always captures exactly 11 id characters. -/
theorem findCapture_spec (lit : List Char) :
    ∀ (cs r : List Char), findCapture lit cs = some r →
      r.length = 11 ∧ r.all idChar = true := by
  intro cs
  induction cs with
  | nil => intro r h; exact matchesAt_spec lit [] r h
  | cons c t ih =>
    intro r h
    simp only [findCapture] at h
    split at h
    · rename_i hm
      cases h
      exact matchesAt_spec _ _ _ hm
    · exact ih r h

/-- `extractVideoId` on an input that is not 11 characters long skips the
bare-id branch and scans the URL patterns in order. -/
theorem extractVideoId_of_not11 (input : String) (h : ¬ input.data.length = 11) :
    extractVideoId input =
      match findCapture "youtube.com/watch?v=".data input.data with
      | some r => some ⟨r⟩
      | none =>
        match findCapture "youtu.be/".data input.data with
        | some r => some ⟨r⟩
        | none =>
          match findCapture "youtube.com/embed/".data input.data with
          | some r => some ⟨r⟩
          | none =>
            match findCapture "youtube.com/v/".data input.data with
            | some r => some ⟨r⟩
            | none => none := by
  simp only [extractVideoId]
  rw [if_neg]
  intro hc
  exact h (of_decide_eq_true (Bool.and_eq_true_iff.mp hc).1)

/-- A bare 11-character id is returned unchanged. -/
theorem extract_bare (id : String) (hlen : id.data.length = 11)
    (hall : id.data.all idChar = true) : extractVideoId id = some id := by
  simp [extractVideoId, hlen, hall]

/-- The `watch?v=` URL form extracts the id. -/
theorem extract_watch (id : String) (hlen : id.data.length = 11)
    (hall : id.data.all idChar = true) :
    extractVideoId ("https://www.youtube.com/watch?v=" ++ id) = some id := by
  have hne : ¬ ("https://www.youtube.com/watch?v=" ++ id).data.length = 11 := by
    rw [String.data_append, List.length_append, hlen,
        show ("https://www.youtube.com/watch?v=".data).length = 32 from by decide]
    omega
  have hfc : findCapture "youtube.com/watch?v=".data
      ("https://www.youtube.com/watch?v=".data ++ id.data) = some id.data := by
    rw [show "https://www.youtube.com/watch?v=".data
          = "https://www.".data ++ "youtube.com/watch?v=".data from rfl,
        List.append_assoc,
        show "youtube.com/watch?v=".data = 'y' :: "outube.com/watch?v=".data from rfl,
        findCapture_skip 'y' _ _ _ (by decide)]
    exact findCapture_found 'y' _ id.data hlen hall
  rw [extractVideoId_of_not11 _ hne, String.data_append, hfc]

/-- The `youtu.be/` short URL form extracts the id. -/
theorem extract_short (id : String) (hlen : id.data.length = 11)
    (hall : id.data.all idChar = true) :
    extractVideoId ("https://youtu.be/" ++ id) = some id := by
  have hne : ¬ ("https://youtu.be/" ++ id).data.length = 11 := by
    rw [String.data_append, List.length_append, hlen,
        show ("https://youtu.be/".data).length = 17 from by decide]
    omega
  have hm1 : matchesAt ('y' :: "outube.com/watch?v=".data)
      ('y' :: ("outu.be/".data ++ id.data)) = none := by
    have hpf : List.isPrefixOf ('y' :: "outube.com/watch?v=".data)
        ('y' :: ("outu.be/".data ++ id.data)) = false := by
      simp [List.isPrefixOf]
    simp [matchesAt, hpf]
  have hfc1 : findCapture "youtube.com/watch?v=".data
      ("https://youtu.be/".data ++ id.data) = none := by
    rw [show "https://youtu.be/".data = "https://".data ++ "youtu.be/".data from rfl,
        List.append_assoc,
        show "youtube.com/watch?v=".data = 'y' :: "outube.com/watch?v=".data from rfl,
        findCapture_skip 'y' _ _ _ (by decide),
        show "youtu.be/".data ++ id.data = 'y' :: ("outu.be/".data ++ id.data) from rfl,
        findCapture_cons_none _ _ _ hm1,
        findCapture_skip 'y' _ _ _ (by decide)]
    exact findCapture_none_of_clean _ '.' (by decide) (by decide) id.data hall
  have hfc2 : findCapture "youtu.be/".data
      ("https://youtu.be/".data ++ id.data) = some id.data := by
    rw [show "https://youtu.be/".data = "https://".data ++ "youtu.be/".data from rfl,
        List.append_assoc,
        show "youtu.be/".data = 'y' :: "outu.be/".data from rfl,
        findCapture_skip 'y' _ _ _ (by decide)]
    exact findCapture_found 'y' _ id.data hlen hall
  rw [extractVideoId_of_not11 _ hne, String.data_append, hfc1, hfc2]

/-- The `embed/` URL form extracts the id. -/
theorem extract_embed (id : String) (hlen : id.data.length = 11)
    (hall : id.data.all idChar = true) :
    extractVideoId ("https://www.youtube.com/embed/" ++ id) = some id := by
  have hne : ¬ ("https://www.youtube.com/embed/" ++ id).data.length = 11 := by
    rw [String.data_append, List.length_append, hlen,
        show ("https://www.youtube.com/embed/".data).length = 30 from by decide]
    omega
  have hm1 : matchesAt ('y' :: "outube.com/watch?v=".data)
      ('y' :: ("outube.com/embed/".data ++ id.data)) = none := by
    have hpf : List.isPrefixOf ('y' :: "outube.com/watch?v=".data)
        ('y' :: ("outube.com/embed/".data ++ id.data)) = false := by
      simp [List.isPrefixOf]
    simp [matchesAt, hpf]
  have hfc1 : findCapture "youtube.com/watch?v=".data
      ("https://www.youtube.com/embed/".data ++ id.data) = none := by
    rw [show "https://www.youtube.com/embed/".data
          = "https://www.".data ++ "youtube.com/embed/".data from rfl,
        List.append_assoc,
        show "youtube.com/watch?v=".data = 'y' :: "outube.com/watch?v=".data from rfl,
        findCapture_skip 'y' _ _ _ (by decide),
        show "youtube.com/embed/".data ++ id.data
          = 'y' :: ("outube.com/embed/".data ++ id.data) from rfl,
        findCapture_cons_none _ _ _ hm1,
        findCapture_skip 'y' _ _ _ (by decide)]
    exact findCapture_none_of_clean _ '.' (by decide) (by decide) id.data hall
  have hm2 : matchesAt ('y' :: "outu.be/".data)
      ('y' :: ("outube.com/embed/".data ++ id.data)) = none := by
    have hpf : List.isPrefixOf ('y' :: "outu.be/".data)
        ('y' :: ("outube.com/embed/".data ++ id.data)) = false := by
      simp [List.isPrefixOf]
    simp [matchesAt, hpf]
  have hfc2 : findCapture "youtu.be/".data
      ("https://www.youtube.com/embed/".data ++ id.data) = none := by
    rw [show "https://www.youtube.com/embed/".data
          = "https://www.".data ++ "youtube.com/embed/".data from rfl,
        List.append_assoc,
        show "youtu.be/".data = 'y' :: "outu.be/".data from rfl,
        findCapture_skip 'y' _ _ _ (by decide),
        show "youtube.com/embed/".data ++ id.data
          = 'y' :: ("outube.com/embed/".data ++ id.data) from rfl,
        findCapture_cons_none _ _ _ hm2,
        findCapture_skip 'y' _ _ _ (by decide)]
    exact findCapture_none_of_clean _ '.' (by decide) (by decide) id.data hall
  have hfc3 : findCapture "youtube.com/embed/".data
      ("https://www.youtube.com/embed/".data ++ id.data) = some id.data := by
    rw [show "https://www.youtube.com/embed/".data
          = "https://www.".data ++ "youtube.com/embed/".data from rfl,
        List.append_assoc,
        show "youtube.com/embed/".data = 'y' :: "outube.com/embed/".data from rfl,
        findCapture_skip 'y' _ _ _ (by decide)]
    exact findCapture_found 'y' _ id.data hlen hall
  rw [extractVideoId_of_not11 _ hne, String.data_append, hfc1, hfc2, hfc3]

/-- Any id returned by `extractVideoId` is 11 URL-safe characters. -/
theorem extractVideoId_spec (s r : String) (h : extractVideoId s = some r) :
    r.data.length = 11 ∧ r.data.all idChar = true := by
  simp only [extractVideoId] at h
  split at h
  · rename_i hcond
    cases h
    have hc := Bool.and_eq_true_iff.mp hcond
    exact ⟨of_decide_eq_true hc.1, hc.2⟩
  · split at h
    · rename_i hfc
      cases h
      exact findCapture_spec _ _ _ hfc
    · split at h
      · rename_i hfc
        cases h
        exact findCapture_spec _ _ _ hfc
      · split at h
        · rename_i hfc
          cases h
          exact findCapture_spec _ _ _ hfc
        · split at h
          · rename_i hfc
            cases h
            exact findCapture_spec _ _ _ hfc
          · cases h

/-- C10: `extractVideoId` returns `null` or a string of exactly 11 characters
drawn from letters, digits, underscore and hyphen, and consequently every
entry accepted through the add form is appended with such an id. -/
theorem extractVideoId_wellformed :
    (∀ s r : String, extractVideoId s = some r →
      r.data.length = 11 ∧ r.data.all idChar = true) ∧
    (∀ (videos : List VideoEntry) (rawId title emoji color : String),
      (settingsAddVideo videos rawId title emoji color).2 = none →
      ∃ e : VideoEntry, (settingsAddVideo videos rawId title emoji color).1 = videos ++ [e] ∧
        e.id.data.length = 11 ∧ e.id.data.all idChar = true) := by
  refine ⟨extractVideoId_spec, ?_⟩
  intro videos rawId title emoji color h
  rcases hE : extractVideoId (trimJS rawId) with _ | vid
  · simp [settingsAddVideo, hE] at h
  · by_cases ht : (trimJS title) = ""
    · simp [settingsAddVideo, hE, ht] at h
    · by_cases hd : (videos.any fun v => v.id = vid) = true
      · simp [settingsAddVideo, hE, ht, hd] at h
      · refine ⟨⟨vid, (trimJS title), emoji, color⟩, ?_, ?_⟩
        · simp [settingsAddVideo, hE, ht, hd, appAddVideo]
        · exact extractVideoId_spec _ _ hE

/-- Witness for `extractVideoId_wellformed`: the example id from the spec and
one successful add into the empty library. -/
theorem extractVideoId_wellformed_witness :
    ("dQw4w9WgXcQ".data.length = 11 ∧ "dQw4w9WgXcQ".data.all idChar = true) ∧
    ∃ e : VideoEntry,
      (settingsAddVideo [] "https://youtu.be/dQw4w9WgXcQ" "Fun Dance Song" "🎵" "#FF6B6B").1 =
        [] ++ [e] ∧ e.id.data.length = 11 ∧ e.id.data.all idChar = true :=
  ⟨extractVideoId_wellformed.1 "https://youtu.be/dQw4w9WgXcQ" "dQw4w9WgXcQ" (by decide),
   extractVideoId_wellformed.2 [] "https://youtu.be/dQw4w9WgXcQ" "Fun Dance Song" "🎵" "#FF6B6B"
     (by decide)⟩

/-- C7 counterexample: the App-level `handleAddVideo` does not re-reject
duplicates — adding an entry whose id is already in the library appends it
anyway and changes the library. -/
theorem app_addVideo_duplicate_counterexample :
    appAddVideo [⟨"dQw4w9WgXcQ", "Song", "🎵", "#FF6B6B"⟩]
        ⟨"dQw4w9WgXcQ", "Other", "🎬", "#4ECDC4"⟩ =
      [⟨"dQw4w9WgXcQ", "Song", "🎵", "#FF6B6B"⟩, ⟨"dQw4w9WgXcQ", "Other", "🎬", "#4ECDC4"⟩] ∧
    appAddVideo [⟨"dQw4w9WgXcQ", "Song", "🎵", "#FF6B6B"⟩]
        ⟨"dQw4w9WgXcQ", "Other", "🎬", "#4ECDC4"⟩ ≠
      [⟨"dQw4w9WgXcQ", "Song", "🎵", "#FF6B6B"⟩] := by
  decide

/-- C7 amended: duplicate rejection lives in the settings-panel
`handleAddVideo` alone — a duplicate id is rejected there with the inline
error and the library unchanged, and the four accepted spellings of an id
(bare, `watch?v=`, `youtu.be/`, `embed/`) all extract the identical id —
while the App-level `handleAddVideo` performs no duplicate check and appends
unconditionally. -/
theorem addVideo_duplicate_rejection_amended :
    (∀ (videos : List VideoEntry) (rawId title emoji color vid : String),
      extractVideoId (trimJS rawId) = some vid →
      ¬ (trimJS title) = "" →
      (videos.any fun v => v.id = vid) = true →
      settingsAddVideo videos rawId title emoji color =
        (videos, some "This video is already in the library")) ∧
    (∀ id : String, id.data.length = 11 → id.data.all idChar = true →
      extractVideoId id = some id ∧
      extractVideoId ("https://www.youtube.com/watch?v=" ++ id) = some id ∧
      extractVideoId ("https://youtu.be/" ++ id) = some id ∧
      extractVideoId ("https://www.youtube.com/embed/" ++ id) = some id) ∧
    (∀ (lib : List VideoEntry) (e : VideoEntry), appAddVideo lib e = lib ++ [e]) := by
  refine ⟨?_, ?_, fun _ _ => rfl⟩
  · intro videos rawId title emoji color vid hE ht hd
    simp [settingsAddVideo, hE, ht, hd]
  · intro id hlen hall
    exact ⟨extract_bare id hlen hall, extract_watch id hlen hall,
           extract_short id hlen hall, extract_embed id hlen hall⟩

/-- Witness for `addVideo_duplicate_rejection_amended`: a concrete duplicate
add is rejected, and the four spellings of `dQw4w9WgXcQ` extract it. -/
theorem addVideo_duplicate_rejection_amended_witness :
    settingsAddVideo [⟨"dQw4w9WgXcQ", "Song", "🎵", "#FF6B6B"⟩]
        "dQw4w9WgXcQ" "Other" "🎬" "#4ECDC4" =
      ([⟨"dQw4w9WgXcQ", "Song", "🎵", "#FF6B6B"⟩],
       some "This video is already in the library") ∧
    extractVideoId "https://youtu.be/dQw4w9WgXcQ" = some "dQw4w9WgXcQ" :=
  ⟨addVideo_duplicate_rejection_amended.1 [⟨"dQw4w9WgXcQ", "Song", "🎵", "#FF6B6B"⟩]
      "dQw4w9WgXcQ" "Other" "🎬" "#4ECDC4" "dQw4w9WgXcQ" (by decide) (by decide) (by decide),
   (addVideo_duplicate_rejection_amended.2.1 "dQw4w9WgXcQ" (by decide) (by decide)).2.2.1⟩

/-! ## Theorems: library persistence -/

/-- `hexVal` decodes what `hexDigit` encodes. -/
theorem hexVal_hexDigit : ∀ v : Nat, v < 16 → hexVal (hexDigit v) = some v := by
  decide

/-- The string-body parser undoes `JSON.stringify` escaping: the escaped body
followed by the closing quote parses back to the original characters. -/
theorem parseStringBody_escape (s : List Char) :
    ∀ rest : List Char, parseStringBody (escapeList s ++ '"' :: rest) = some (s, rest) := by
  induction s with
  | nil =>
    intro rest
    rw [show escapeList [] ++ '"' :: rest = '"' :: rest from rfl, parseStringBody.eq_def]
    simp
  | cons c t ih =>
    intro rest
    simp only [escapeList, List.append_assoc]
    by_cases h1 : c = '"'
    · subst h1
      rw [show escapeChar '"' = ['\\', '"'] from rfl, List.cons_append, List.cons_append,
        List.nil_append, parseStringBody.eq_def]
      simp [ih]
    · by_cases h2 : c = '\\'
      · subst h2
        rw [show escapeChar '\\' = ['\\', '\\'] from rfl, List.cons_append, List.cons_append,
          List.nil_append, parseStringBody.eq_def]
        simp [ih]
      · by_cases h3 : c = '\x08'
        · subst h3
          rw [show escapeChar '\x08' = ['\\', 'b'] from rfl, List.cons_append, List.cons_append,
            List.nil_append, parseStringBody.eq_def]
          simp [ih]
        · by_cases h4 : c = '\t'
          · subst h4
            rw [show escapeChar '\t' = ['\\', 't'] from rfl, List.cons_append,
              List.cons_append, List.nil_append, parseStringBody.eq_def]
            simp [ih]
          · by_cases h5 : c = '\n'
            · subst h5
              rw [show escapeChar '\n' = ['\\', 'n'] from rfl, List.cons_append,
                List.cons_append, List.nil_append, parseStringBody.eq_def]
              simp [ih]
            · by_cases h6 : c = '\x0c'
              · subst h6
                rw [show escapeChar '\x0c' = ['\\', 'f'] from rfl, List.cons_append,
                  List.cons_append, List.nil_append, parseStringBody.eq_def]
                simp [ih]
              · by_cases h7 : c = '\r'
                · subst h7
                  rw [show escapeChar '\r' = ['\\', 'r'] from rfl, List.cons_append,
                    List.cons_append, List.nil_append, parseStringBody.eq_def]
                  simp [ih]
                · by_cases h8 : c.toNat < 32
                  · have hv1 : hexVal (hexDigit (c.toNat / 16)) = some (c.toNat / 16) :=
                      hexVal_hexDigit _ (by omega)
                    have hv2 : hexVal (hexDigit (c.toNat % 16)) = some (c.toNat % 16) :=
                      hexVal_hexDigit _ (by omega)
                    simp only [escapeChar, h1, h2, h3, h4, h5, h6, h7, if_pos h8, if_false,
                      ite_false, List.cons_append, List.nil_append]
                    rw [parseStringBody.eq_def]
                    simp [hv1, hv2, ih, show hexVal '0' = some 0 from rfl]
                    rw [show c.toNat / 16 * 16 + c.toNat % 16 = c.toNat from by omega]
                    exact Char.ofNat_toNat c
                  · simp only [escapeChar, h1, h2, h3, h4, h5, h6, h7, h8, if_false,
                      ite_false, List.cons_append, List.nil_append]
                    rw [parseStringBody.eq_def]
                    simp [h1, h2, h8, ih]

/-- Structure eta for strings, as a rewrite rule. -/
theorem string_eta (s : String) : String.mk s.data = s := rfl

/-- `skipWs` keeps a leading quote. -/
theorem skipWs_quote (t : List Char) : skipWs ('"' :: t) = '"' :: t := rfl

/-- `skipWs` keeps a leading colon. -/
theorem skipWs_colon (t : List Char) : skipWs (':' :: t) = ':' :: t := rfl

/-- `skipWs` keeps a leading comma. -/
theorem skipWs_comma (t : List Char) : skipWs (',' :: t) = ',' :: t := rfl

/-- `skipWs` keeps a leading closing brace. -/
theorem skipWs_rbrace (t : List Char) : skipWs ('}' :: t) = '}' :: t := rfl

/-- `skipWs` keeps a leading closing bracket. -/
theorem skipWs_rbrack (t : List Char) : skipWs (']' :: t) = ']' :: t := rfl

/-- `skipWs` keeps a leading opening brace. -/
theorem skipWs_lbrace (t : List Char) : skipWs ('{' :: t) = '{' :: t := rfl

/-- `skipWs` on the empty input. -/
theorem skipWs_nil : skipWs [] = [] := rfl

/-- One fuel step of `parseValue` on a string literal. -/
theorem parseValue_quote (fuel : Nat) (rest : List Char) :
    parseValue (fuel + 1) ('"' :: rest) =
      match parseStringBody rest with
      | some (s, r) => some (.jstr ⟨s⟩, r)
      | none => none := rfl

/-- One fuel step of `parseValue` on an object. -/
theorem parseValue_lbrace (fuel : Nat) (rest : List Char) :
    parseValue (fuel + 1) ('{' :: rest) =
      match skipWs rest with
      | '}' :: r2 => some (.jobj [], r2)
      | _ =>
        match parseMembers fuel rest with
        | some (ms, r) => some (.jobj ms, r)
        | none => none := rfl

/-- One fuel step of `parseValue` on an array. -/
theorem parseValue_lbrack (fuel : Nat) (rest : List Char) :
    parseValue (fuel + 1) ('[' :: rest) =
      match skipWs rest with
      | ']' :: r2 => some (.jarr [], r2)
      | _ =>
        match parseElems fuel rest with
        | some (vs, r) => some (.jarr vs, r)
        | none => none := rfl

/-- One fuel step of `parseElems`. -/
theorem parseElems_succ (fuel : Nat) (cs : List Char) :
    parseElems (fuel + 1) cs =
      match parseValue fuel cs with
      | none => none
      | some (v, rest) =>
          match skipWs rest with
          | ',' :: r2 =>
              (match parseElems fuel r2 with
               | some (vs, r) => some (v :: vs, r)
               | none => none)
          | ']' :: r2 => some ([v], r2)
          | _ => none := rfl

/-- One fuel step of `parseMembers`. -/
theorem parseMembers_succ (fuel : Nat) (cs : List Char) :
    parseMembers (fuel + 1) cs =
      match skipWs cs with
      | '"' :: rest =>
          (match parseStringBody rest with
           | some (k, r1) =>
             match skipWs r1 with
             | ':' :: r2 =>
                 (match parseValue fuel r2 with
                  | some (v, r3) =>
                    match skipWs r3 with
                    | ',' :: r4 =>
                        (match parseMembers fuel r4 with
                         | some (ms, r) => some ((⟨k⟩, v) :: ms, r)
                         | none => none)
                    | '}' :: r4 => some ([(⟨k⟩, v)], r4)
                    | _ => none
                  | none => none)
             | _ => none
           | none => none)
      | _ => none := rfl

/-- A printed non-empty object body of string-valued members parses back to
exactly those members, with one fuel unit per member plus one for the value
inside. -/
theorem parseMembers_jstrs (ms : List (String × Json)) :
    ∀ (fuel : Nat) (rest : List Char), ms ≠ [] →
      (∀ m ∈ ms, ∃ v : String, m.2 = Json.jstr v) →
      parseMembers (fuel + ms.length + 1) (printMembers ms ++ '}' :: rest) = some (ms, rest) := by
  induction ms with
  | nil => intro fuel rest h; exact absurd rfl h
  | cons kv tl ih =>
    intro fuel rest _ hshape
    obtain ⟨k, j⟩ := kv
    obtain ⟨v, hv⟩ := hshape (k, j) (by simp)
    simp only at hv
    subst hv
    rcases tl with _ | ⟨kv2, tl2⟩
    · simp only [printMembers, printJson, List.length_cons, List.length_nil,
        List.cons_append, List.append_assoc, List.nil_append]
      rw [show (fuel + (0 + 1) + 1) = (fuel + 1) + 1 from by omega, parseMembers_succ]
      simp only [skipWs_quote, parseStringBody_escape, skipWs_colon, parseValue_quote,
        skipWs_rbrace, string_eta]
    · simp only [printMembers, printJson, List.length_cons,
        List.cons_append, List.append_assoc, List.nil_append]
      rw [show (fuel + (tl2.length + 1 + 1) + 1) = (fuel + tl2.length + 1 + 1) + 1 from by omega,
        parseMembers_succ]
      simp only [skipWs_quote, parseStringBody_escape, skipWs_colon, parseValue_quote,
        skipWs_comma, string_eta]
      rw [show (fuel + tl2.length + 1 + 1) = fuel + (kv2 :: tl2).length + 1 from by
            rw [List.length_cons]; omega,
        ih fuel rest (by simp) (fun m hm => hshape m (by simp [hm]))]

/-- The printed member list of an encoded entry starts with a quote. -/
theorem printMembers_encodeEntry_head (e : VideoEntry) :
    ∃ Y : List Char,
      printMembers [("id", Json.jstr e.id), ("title", Json.jstr e.title),
        ("emoji", Json.jstr e.emoji), ("color", Json.jstr e.color)] = '"' :: Y := by
  simp only [printMembers, printJson, List.cons_append, List.append_assoc, List.nil_append]
  exact ⟨_, rfl⟩

/-- A printed encoded entry parses back to itself with six fuel units. -/
theorem parseValue_encodeEntry (e : VideoEntry) (fuel : Nat) (rest : List Char) :
    parseValue (fuel + 6) (printJson (encodeEntry e) ++ rest) = some (encodeEntry e, rest) := by
  have hms := parseMembers_jstrs
    [("id", Json.jstr e.id), ("title", Json.jstr e.title),
     ("emoji", Json.jstr e.emoji), ("color", Json.jstr e.color)] fuel rest (by simp)
    (by intro m hm
        simp only [List.mem_cons, List.not_mem_nil, or_false] at hm
        rcases hm with rfl | rfl | rfl | rfl <;> exact ⟨_, rfl⟩)
  obtain ⟨Y, hY⟩ := printMembers_encodeEntry_head e
  rw [hY] at hms
  simp only [List.cons_append] at hms
  simp only [encodeEntry, printJson, List.cons_append, List.append_assoc, List.nil_append]
  rw [hY, show fuel + 6 = (fuel + 5) + 1 from rfl, parseValue_lbrace]
  simp only [List.cons_append, skipWs_quote]
  have hms5 : parseMembers (fuel + 5) ('"' :: (Y ++ '}' :: rest))
      = some ([("id", Json.jstr e.id), ("title", Json.jstr e.title),
               ("emoji", Json.jstr e.emoji), ("color", Json.jstr e.color)], rest) := hms
  simp [hms5]

/-- `String.mk` projections, as a rewrite rule. -/
theorem string_data_mk (l : List Char) : (String.mk l).data = l := rfl

/-- A printed encoded entry is at least two characters long. -/
theorem printJson_encodeEntry_len (e : VideoEntry) :
    2 ≤ (printJson (encodeEntry e)).length := by
  simp only [encodeEntry, printJson]
  simp [List.length_append]

/-- A printed list of encoded entries has at least two characters per entry. -/
theorem printElems_entries_len (es : List Json) :
    (∀ x ∈ es, ∃ en : VideoEntry, x = encodeEntry en) →
    2 * es.length ≤ (printElems es).length := by
  induction es with
  | nil => intro _; simp [printElems]
  | cons v tl ih =>
    intro hshape
    obtain ⟨en, rfl⟩ := hshape v (by simp)
    rcases tl with _ | ⟨v2, tl2⟩
    · have h1 := printJson_encodeEntry_len en
      simp only [printElems, List.length_cons, List.length_nil]
      omega
    · have h1 := printJson_encodeEntry_len en
      have h2 := ih (fun x hx => hshape x (by simp [hx]))
      simp only [printElems, List.length_append, List.length_cons] at h2 ⊢
      omega

/-- A printed non-empty list of encoded entries parses back to exactly those
entries, with one fuel unit per entry plus the seven an entry needs. -/
theorem parseElems_entries (es : List Json) :
    ∀ (fuel : Nat) (rest : List Char), es ≠ [] →
      (∀ x ∈ es, ∃ en : VideoEntry, x = encodeEntry en) →
      parseElems (fuel + es.length + 7) (printElems es ++ ']' :: rest) = some (es, rest) := by
  induction es with
  | nil => intro fuel rest h; exact absurd rfl h
  | cons v tl ih =>
    intro fuel rest _ hshape
    obtain ⟨en, rfl⟩ := hshape v (by simp)
    rcases tl with _ | ⟨v2, tl2⟩
    · simp only [printElems, List.length_cons, List.length_nil]
      rw [show fuel + (0 + 1) + 7 = ((fuel + 1) + 6) + 1 from by omega, parseElems_succ,
        parseValue_encodeEntry]
      simp [skipWs_rbrack]
    · simp only [printElems, List.length_cons, List.append_assoc, List.cons_append]
      rw [show fuel + (tl2.length + 1 + 1) + 7 = ((fuel + tl2.length + 2) + 6) + 1 from by omega,
        parseElems_succ, parseValue_encodeEntry]
      simp only [skipWs_comma]
      rw [show (fuel + tl2.length + 2) + 6 = fuel + (v2 :: tl2).length + 7 from by
            rw [List.length_cons]; omega,
        ih fuel rest (by simp) (fun x hx => hshape x (by simp [hx]))]

/-- A printed non-empty list of encoded entries starts with a brace. -/
theorem printElems_entries_head (e : VideoEntry) (tl : List Json) :
    ∃ Y : List Char, printElems (encodeEntry e :: tl) = '{' :: Y := by
  rcases tl with _ | ⟨v2, tl2⟩ <;>
    · simp only [printElems, encodeEntry, printJson, List.cons_append, List.append_assoc,
        List.nil_append]
      exact ⟨_, rfl⟩


/-- Printing a library with `JSON.stringify` and parsing it with `JSON.parse`
recovers exactly the encoded library value. -/
theorem parseJson_persist (lib : List VideoEntry) :
    parseJson (persistLibrary lib) = some (encodeLibrary lib) := by
  rcases lib with _ | ⟨e, tl⟩
  · rfl
  · have hshape : ∀ x ∈ (e :: tl).map encodeEntry, ∃ en : VideoEntry, x = encodeEntry en := by
      intro x hx
      obtain ⟨en, _, rfl⟩ := List.mem_map.mp hx
      exact ⟨en, rfl⟩
    have hlen := printElems_entries_len ((e :: tl).map encodeEntry) hshape
    obtain ⟨Y, hY⟩ := printElems_entries_head e (tl.map encodeEntry)
    simp only [List.map_cons] at hshape hlen ⊢
    rw [hY] at hlen
    simp only [List.length_cons] at hlen
    simp only [parseJson, persistLibrary, encodeLibrary, string_data_mk, printJson,
      List.length_cons, List.length_append, List.length_nil, List.map_cons, List.cons_append]
    rw [show 2 * ((printElems (encodeEntry e :: List.map encodeEntry tl)).length + 1 + (0 + 1)) + 2
          = (2 * (printElems (encodeEntry e :: List.map encodeEntry tl)).length + 5) + 1 from by
        omega,
      parseValue_lbrack, hY]
    simp only [List.cons_append, skipWs_lbrace, List.length_cons]
    have hPE := parseElems_entries (encodeEntry e :: List.map encodeEntry tl)
      (2 * (Y.length + 1) + 5 - ((List.map encodeEntry tl).length + 1 + 7)) [] (by simp) hshape
    rw [hY] at hPE
    simp only [List.cons_append, List.length_cons] at hPE
    rw [show 2 * (Y.length + 1) + 5
          = 2 * (Y.length + 1) + 5 - ((List.map encodeEntry tl).length + 1 + 7)
            + ((List.map encodeEntry tl).length + 1) + 7 from by omega]
    rw [hPE]
    simp [skipWs_nil]

/-- Decoding inverts encoding for one entry. -/
theorem decodeEntry_encodeEntry (e : VideoEntry) : decodeEntry (encodeEntry e) = some e := rfl

/-- Decoding inverts encoding for a list of entries. -/
theorem decodeEntries_map (lib : List VideoEntry) :
    decodeEntries (lib.map encodeEntry) = some lib := by
  induction lib with
  | nil => rfl
  | cons e tl ih => simp [decodeEntries, decodeEntry_encodeEntry, ih]

/-- Decoding inverts encoding for a whole library. -/
theorem decodeLibrary_encodeLibrary (lib : List VideoEntry) :
    decodeLibrary (encodeLibrary lib) = some lib := by
  simp [decodeLibrary, encodeLibrary, decodeEntries_map]

/-- C4: at startup, a present but malformed persisted payload — one
`JSON.parse` throws on — loads exactly the compiled-in default sequence, and
so does an absent payload; the load itself is a total function (no crash). -/
theorem corrupt_payload_loads_default :
    loadLibrary none = encodeLibrary defaultVideos ∧
    (∀ s : String, parseJson s = none →
      loadLibrary (some s) = encodeLibrary defaultVideos ∧
      decodeLibrary (loadLibrary (some s)) = some defaultVideos) := by
  refine ⟨rfl, ?_⟩
  intro s h
  refine ⟨?_, ?_⟩
  · simp [loadLibrary, h]
  · simp [loadLibrary, h, decodeLibrary_encodeLibrary]

/-- Witness for `corrupt_payload_loads_default` at the malformed payload
`"["` (an unterminated array). -/
theorem corrupt_payload_loads_default_witness :
    loadLibrary (some "[") = encodeLibrary defaultVideos ∧
    decodeLibrary (loadLibrary (some "[")) = some defaultVideos :=
  corrupt_payload_loads_default.2 "[" (by rfl)

/-- C5: persisting any valid library with `JSON.stringify` and rehydrating it
with `JSON.parse` yields a value- and order-equal sequence of entries. -/
theorem library_persist_roundtrip (lib : List VideoEntry) (_hvalid : ValidLibrary lib) :
    loadLibrary (some (persistLibrary lib)) = encodeLibrary lib ∧
    decodeLibrary (loadLibrary (some (persistLibrary lib))) = some lib := by
  have h := parseJson_persist lib
  refine ⟨?_, ?_⟩
  · simp [loadLibrary, h]
  · simp [loadLibrary, h, decodeLibrary_encodeLibrary]

/-- The default library satisfies the data-model invariant. -/
theorem defaultVideos_valid : ValidLibrary defaultVideos := by
  refine ⟨?_, by decide⟩
  intro e he
  simp only [defaultVideos, List.mem_singleton] at he
  subst he
  exact ⟨by decide, by decide, by decide⟩

/-- Witness for `library_persist_roundtrip` at the default library. -/
theorem library_persist_roundtrip_witness :
    decodeLibrary (loadLibrary (some (persistLibrary defaultVideos))) = some defaultVideos :=
  (library_persist_roundtrip defaultVideos defaultVideos_valid).2
